import Mathlib

set_option maxHeartbeats 1000000
set_option maxRecDepth 4000

/-
Verification of the build-descriptor synthesis engine of
src/ExampleProject/platforms/android/cordova/lib/builders/GradleBuilder.js.

Strings are modelled as `List Char`; the file system as a map from paths
to optional file contents.  JavaScript regular-expression operations used
by the source are modelled by executable functions on `List Char`
(documented at each definition).
-/

/-- True when `pat` occurs in `s` starting at index `i`. -/
def occursAtB (pat s : List Char) (i : Nat) : Bool :=
  pat.isPrefixOf (s.drop i)

/-- All indices, in ascending order, at which `pat` occurs in `s`. -/
def occIdxs (pat s : List Char) : List Nat :=
  (List.range (s.length + 1)).filter (occursAtB pat s)

/-- Index of the first occurrence of `pat` in `s`; `none` when `pat` does not
occur.  This models `String.prototype.indexOf` (with `none` for `-1`) and the
leftmost-match rule of JavaScript regular expressions. -/
def findFirst (pat s : List Char) : Option Nat :=
  (occIdxs pat s).head?

/-- Index of the last occurrence of `pat` in `s`.  A greedy `[\s\S]*` between
two literal delimiters makes the second delimiter match at its last
occurrence, which this models. -/
def findLast (pat s : List Char) : Option Nat :=
  (occIdxs pat s).getLast?

/-- JavaScript `String.prototype.replace` with a *string* pattern: only the
first occurrence of `pat` in `s` is replaced by `rep`.  (Dollar escapes in
`rep` are not modelled; the source only passes replacement strings without
dollar signs.) -/
def jsReplaceFirst (s pat rep : List Char) : List Char :=
  match findFirst pat s with
  | none => s
  | some i => s.take i ++ rep ++ s.drop (i + pat.length)

/-- JavaScript `\d`, a decimal digit. -/
def isDigitChar (c : Char) : Bool :=
  decide ('0' ≤ c) && decide (c ≤ '9')

/-- ECMAScript GetSubstitution for a replacement string, specialized to a
regular expression with exactly two capture groups (both regexes at lines
214 and 219 have two groups).  The replacement string is scanned left to
right: `$$` yields a dollar; `$&` the matched substring; dollar-backtick
(U+0060) the portion of the subject before the match; dollar-apostrophe the
portion after the match; `$n`/`$nn` the nth capture when `1 <= n <= 2`, with
the two-digit form falling back to one digit when the two-digit index
exceeds the capture count, and staying literal text when no capture applies;
any other dollar stays literal.  Every other character is copied
verbatim. -/
def getSubstitution (matched before after cap1 cap2 : List Char) :
    List Char → List Char
  | [] => []
  | ['$'] => ['$']
  | '$' :: '$' :: r => '$' :: getSubstitution matched before after cap1 cap2 r
  | '$' :: '&' :: r =>
    matched ++ getSubstitution matched before after cap1 cap2 r
  | '$' :: '\'' :: r =>
    after ++ getSubstitution matched before after cap1 cap2 r
  | ['$', c1] =>
    if c1 = Char.ofNat 96 then before
    else if c1 = '1' then cap1
    else if c1 = '2' then cap2
    else ['$', c1]
  | '$' :: c1 :: c2 :: r =>
    if c1 = Char.ofNat 96 then
      before ++ getSubstitution matched before after cap1 cap2 (c2 :: r)
    else if isDigitChar c1 then
      if isDigitChar c2 then
        let nn := (c1.toNat - 48) * 10 + (c2.toNat - 48)
        if nn = 1 then
          cap1 ++ getSubstitution matched before after cap1 cap2 r
        else if nn = 2 then
          cap2 ++ getSubstitution matched before after cap1 cap2 r
        else if nn = 0 then
          '$' :: c1 :: c2 :: getSubstitution matched before after cap1 cap2 r
        else if c1 = '1' then
          cap1 ++ getSubstitution matched before after cap1 cap2 (c2 :: r)
        else if c1 = '2' then
          cap2 ++ getSubstitution matched before after cap1 cap2 (c2 :: r)
        else
          '$' :: c1 :: getSubstitution matched before after cap1 cap2 (c2 :: r)
      else if c1 = '1' then
        cap1 ++ getSubstitution matched before after cap1 cap2 (c2 :: r)
      else if c1 = '2' then
        cap2 ++ getSubstitution matched before after cap1 cap2 (c2 :: r)
      else
        '$' :: c1 :: getSubstitution matched before after cap1 cap2 (c2 :: r)
    else
      '$' :: getSubstitution matched before after cap1 cap2 (c1 :: c2 :: r)
  | c :: rest => c :: getSubstitution matched before after cap1 cap2 rest

/-- Model of `str.replace(/(START)[\s\S]*(END)/, replacement)` as used at
lines 214 and 219 of GradleBuilder.js, `replacement` being the source
template `'$1\n' + depsList + '    $2'` resp. `'$1\n' + includeList + '$2'`
in full: the regex matches from the first occurrence of `startPat` to the
last occurrence of `endPat` at or after the end of that occurrence (the star
is greedy and `[\s\S]` matches every character), and the whole match is
replaced by GetSubstitution applied to the replacement string, with group 1
the start marker and group 2 the end marker.  Dollar sequences anywhere in
the replacement, including inside the spliced dependency or include lists,
are expanded.  When the regex does not match, `replace` returns the string
unchanged -- it does not raise an error. -/
def markerReplace (startPat endPat repl s : List Char) : List Char :=
  match findFirst startPat s with
  | none => s
  | some i =>
    match findLast endPat (s.drop (i + startPat.length)) with
    | none => s
    | some j =>
      s.take i
        ++ getSubstitution
          (startPat ++ (s.drop (i + startPat.length)).take j ++ endPat)
          (s.take i)
          ((s.drop (i + startPat.length)).drop (j + endPat.length))
          startPat endPat repl
        ++ ((s.drop (i + startPat.length)).drop (j + endPat.length))

/-- Errors thrown by the modelled code: `CordovaError(msg)` and the implicit
file-system error of `fs.readFileSync` on a missing file. -/
inductive JsError : Type where
  | cordovaError (msg : List Char)
  | enoent (path : List Char)
deriving DecidableEq

instance {ε α : Type} [DecidableEq ε] [DecidableEq α] :
    DecidableEq (Except ε α) := fun a b =>
  match a, b with
  | .error e, .error f =>
    if h : e = f then .isTrue (by rw [h]) else
      .isFalse (fun hh => h (Except.error.inj hh))
  | .ok x, .ok y =>
    if h : x = y then .isTrue (by rw [h]) else
      .isFalse (fun hh => h (Except.ok.inj hh))
  | .error _, .ok _ => .isFalse (fun hh => Except.noConfusion hh)
  | .ok _, .error _ => .isFalse (fun hh => Except.noConfusion hh)

/-- `var MARKER = 'YOUR CHANGES WILL BE ERASED!';` (line 31). -/
def MARKER : List Char := "YOUR CHANGES WILL BE ERASED!".data

/-- `var SIGNING_PROPERTIES = '-signing.properties';` (line 32). -/
def SIGNING_PROPERTIES : List Char := "-signing.properties".data

/-- `var TEMPLATE = ...` (lines 33-35). -/
def TEMPLATE : List Char :=
  "# This file is automatically generated.\n# Do not modify this file -- ".data
    ++ MARKER ++ "\n".data

/-- JavaScript line terminators, which `.` in a regular expression does not
match: `\n`, `\r`, U+2028 and U+2029. -/
def isLineTerm (c : Char) : Bool :=
  c = '\n' || c = '\r' || c = '\u2028' || c = '\u2029'

/-- Scanner for the test `/:.*:/.exec(p)` (line 195): the regex matches
exactly when two colons occur with no line terminator between them (`.` does
not cross line terminators).  The accumulator records whether a colon has
been seen on the current line. -/
def twoColonScan : List Char → Bool → Bool
  | [], _ => false
  | c :: rest, sawColon =>
    if c = ':' then (sawColon || twoColonScan rest true)
    else if isLineTerm c then twoColonScan rest false
    else twoColonScan rest sawColon

/-- `/:.*:/.exec(p)` is truthy (line 195). -/
def twoColonMatch (p : List Char) : Bool :=
  twoColonScan p false

/-- `^\/?` -- an optional single leading slash. -/
def stripOptSlash : List Char → List Char
  | '/' :: r => r
  | s => s

/-- The capture of `/^\/?extras\/android\/support\/(.*)$/` (line 189): after
an optional leading slash the literal prefix must follow, and the capture is
the rest of the string, which must contain no line terminator (`.` cannot
match one and `$` only matches at the end of the input). -/
def supportLibCapture (p : List Char) : Option (List Char) :=
  let q := stripOptSlash p
  if "extras/android/support/".data.isPrefixOf q then
    let cap := q.drop ("extras/android/support/".data.length)
    if cap.any isLineTerm then none else some cap
  else none

/-- A mapping rule: the modelled `p.replace(pattern, template)` result when
`pattern` matches `p`, and `none` otherwise. -/
def SysLibRule : Type := List Char → Option (List Char)

/-- First rule of `SYSTEM_LIBRARY_MAPPINGS` (line 189): template
`'com.android.support:support-$1:+'` applied to the capture. -/
def supportLibRule : SysLibRule := fun p =>
  (supportLibCapture p).map
    (fun cap => "com.android.support:support-".data ++ cap ++ ":+".data)

/-- Whether `/^\/?google\/google_play_services\/libproject\/google-play-services_lib\/?$/`
(line 190) matches `p`: the fixed literal with an optional leading and an
optional trailing slash. -/
def playServicesMatch (p : List Char) : Bool :=
  let lit := "google/google_play_services/libproject/google-play-services_lib".data
  let q := stripOptSlash p
  q == lit || q == lit ++ ['/']

/-- Second rule of `SYSTEM_LIBRARY_MAPPINGS` (line 190): constant template
`'com.google.android.gms:play-services:+'`. -/
def playServicesRule : SysLibRule := fun p =>
  if playServicesMatch p then some "com.google.android.gms:play-services:+".data
  else none

/-- `var SYSTEM_LIBRARY_MAPPINGS = [...]` (lines 188-191), as the ordered
rule table. -/
def SYSTEM_LIBRARY_MAPPINGS : List SysLibRule :=
  [supportLibRule, playServicesRule]

/-- The `for` loop of lines 198-204: scan the table in order and stop at the
first rule whose pattern matches. -/
def scanMappings : List SysLibRule → List Char → Option (List Char)
  | [], _ => none
  | rule :: rest, p =>
    match rule p with
    | some out => some out
    | none => scanMappings rest p

/-- Message prefix of the error thrown at line 206. -/
def unsupportedMsg : List Char :=
  "Unsupported system library (does not work with gradle): ".data

/-- Lines 192-208, the per-library resolution, over an arbitrary rule table:
pass through when `/:.*:/` matches, otherwise first matching rule wins,
otherwise throw `CordovaError` naming the raw value. -/
def resolveSystemLibWith (table : List SysLibRule) (p : List Char) :
    Except JsError (List Char) :=
  if twoColonMatch p then .ok p
  else
    match scanMappings table p with
    | some m => .ok m
    | none => .error (.cordovaError (unsupportedMsg ++ p))

/-- The source resolution, over the fixed table `SYSTEM_LIBRARY_MAPPINGS`. -/
def resolveSystemLib (p : List Char) : Except JsError (List Char) :=
  resolveSystemLibWith SYSTEM_LIBRARY_MAPPINGS p

/-- `p.replace(/[/\\]/g, ':')` (lines 151 and 182): every slash or backslash
becomes a colon (`realDir`). -/
def canonColon (p : List Char) : List Char :=
  p.map (fun c => if c = '/' || c = '\\' then ':' else c)

/-- `realDir.replace(name + '-', '')` (lines 152 and 182): the module name
(`libName`), with the first occurrence of the host name followed by a dash
removed. -/
def libNameOf (name p : List Char) : List Char :=
  jsReplaceFirst (canonColon p) (name ++ ['-']) []

/-- One element of `settingsGradlePaths` (lines 150-156): the module include
line, plus the `projectDir` override exactly when
`realDir.indexOf(name + '-') !== -1`. -/
def settingsEntry (name p : List Char) : List Char :=
  "include \":".data ++ libNameOf name p ++ "\"\n".data ++
    (if (findFirst (name ++ ['-']) (canonColon p)).isSome then
      "project(\":".data ++ libNameOf name p
        ++ "\").projectDir = new File(\"".data ++ p ++ "\")\n".data
    else [])

/-- The full settings.gradle content written at lines 159-161. -/
def settingsText (name : List Char) (subProjects : List (List Char)) :
    List Char :=
  "// GENERATED FILE - DO NOT EDIT\n".data ++ "include \":\"\n".data ++
    (subProjects.map (settingsEntry name)).flatten

/-- The exclusion block appended by `insertExclude` (line 174) when the
sub-project descriptor mentions CordovaLib. -/
def cordovaLibExclude : List Char :=
  "\x7b\n        exclude module:(\"CordovaLib\")\n    \x7d\n".data

/-- One sub-project dependency declaration (lines 180-185): the
`implementation(project(path: ...))` line followed by the CordovaLib
exclusion when `projectGradleFile.indexOf('CordovaLib') !== -1`, else a bare
newline.  `subGradle p` is the content of the build.gradle of sub-project
`p`, read by `insertExclude`. -/
def subDepLine (name : List Char) (subGradle : List Char → List Char)
    (p : List Char) : List Char :=
  "    implementation(project(path: \"".data ++ libNameOf name p ++ "\"))".data
    ++ (if (findFirst "CordovaLib".data (subGradle p)).isSome then
          cordovaLibExclude
        else ['\n'])

/-- One resolved system-library dependency line (line 209). -/
def sysDepLine (mavenRef : List Char) : List Char :=
  "    compile \"".data ++ mavenRef ++ "\"\n".data

/-- The system-library part of `depsList` (lines 192-210): lines in input
order; the loop throws at the first unresolvable library. -/
def sysDeps : List (List Char) → Except JsError (List Char)
  | [] => .ok []
  | p :: rest => do
    let m ← resolveSystemLib p
    let r ← sysDeps rest
    .ok (sysDepLine m ++ r)

/-- The complete `depsList` (lines 164-210): sub-project declarations in
order, then system-library declarations in order. -/
def buildDepsList (name : List Char) (subGradle : List Char → List Char)
    (subProjects systemLibs : List (List Char)) :
    Except JsError (List Char) :=
  match sysDeps systemLibs with
  | .error e => .error e
  | .ok sys => .ok ((subProjects.map (subDepLine name subGradle)).flatten ++ sys)

/-- First capture group of the dependency-block regex (line 214). -/
def subDepsStart : List Char := "SUB-PROJECT DEPENDENCIES START".data

/-- Second capture group of the dependency-block regex (line 214). -/
def subDepsEnd : List Char := "// SUB-PROJECT DEPENDENCIES END".data

/-- First capture group of the include-extensions regex (line 219). -/
def pluginExtStart : List Char := "PLUGIN GRADLE EXTENSIONS START".data

/-- Second capture group of the include-extensions regex (line 219). -/
def pluginExtEnd : List Char := "// PLUGIN GRADLE EXTENSIONS END".data

/-- One line of `includeList` (lines 216-218). -/
def includeLine (includePath : List Char) : List Char :=
  "apply from: \"".data ++ includePath ++ "\"\n".data

/-- `includeList` (lines 215-218). -/
def includeListOf (gradleIncludes : List (List Char)) : List Char :=
  (gradleIncludes.map includeLine).flatten

/-- Lines 163-219 of `prepBuildFiles`, as a pure function of the original
build.gradle text: build `depsList` (which may throw), splice it between the
dependency markers, then splice `includeList` between the extension
markers. -/
def injectBuildGradle (name : List Char) (subGradle : List Char → List Char)
    (subProjects systemLibs gradleIncludes : List (List Char))
    (buildGradle : List Char) : Except JsError (List Char) :=
  match buildDepsList name subGradle subProjects systemLibs with
  | .error e => .error e
  | .ok dl =>
    let s1 := markerReplace subDepsStart subDepsEnd
      ("$1\n".data ++ dl ++ "    $2".data) buildGradle
    let s2 := markerReplace pluginExtStart pluginExtEnd
      ("$1\n".data ++ includeListOf gradleIncludes ++ "$2".data) s1
    .ok s2

/-- A file system: each path maps to the content of the file there, when it
exists. -/
def FS : Type := List Char → Option (List Char)

/-- `fs.writeFileSync`. -/
def fsUpdate (fs : FS) (p c : List Char) : FS :=
  fun q => if q = p then some c else fs q

/-- `shell.rm('-f', p)`. -/
def fsRemove (fs : FS) (p : List Char) : FS :=
  fun q => if q = p then none else fs q

/-- Path of the settings manifest written at line 159 (relative to the
project root). -/
def settingsGradlePath : List Char := "settings.gradle".data

/-- Path of the build descriptor read at line 163 and written at line 220
(relative to the project root). -/
def buildGradlePath : List Char := "build.gradle".data

/-- The parsed `project.properties` (return value of
`readProjectProperties`, lines 100-104). -/
structure ProjectProperties : Type where
  libs : List (List Char)
  gradleIncludes : List (List Char)
  systemLibs : List (List Char)

/-- Lines 148-221 of `prepBuildFiles`, from the settings.gradle write to the
build.gradle write, as a state-passing function on the file system.  The
settings manifest is written first; then the build descriptor is read (a
missing file surfaces as the read error); then `depsList` is computed, which
may throw `CordovaError`; only when everything succeeded is the spliced
descriptor written back.  (The earlier `checkAndCopy` copies of
plugin-build.gradle into sub-project directories and the manifest read that
produces `name` are outside this model.) -/
def prepBuildFilesModel (fs : FS) (name : List Char)
    (subGradle : List Char → List Char) (props : ProjectProperties) :
    Except JsError Unit × FS :=
  let fs1 := fsUpdate fs settingsGradlePath (settingsText name props.libs)
  match fs1 buildGradlePath with
  | none => (.error (.enoent buildGradlePath), fs1)
  | some bg =>
    match injectBuildGradle name subGradle props.libs props.systemLibs
        props.gradleIncludes bg with
    | .error e => (.error e, fs1)
    | .ok s2 => (.ok (), fsUpdate fs1 buildGradlePath s2)

/-- `isAutoGenerated` (lines 328-330): the file exists and
`content.indexOf(MARKER) > 0`, i.e. the first occurrence of the marker is at
a strictly positive offset. -/
def isAutoGenerated (fs : FS) (file : List Char) : Bool :=
  match fs file with
  | none => false
  | some c =>
    match findFirst MARKER c with
    | none => false
    | some i => decide (0 < i)

/-- The signing-properties path for a build variant (lines 256-257 and
299). -/
def sigPath (buildType : List Char) : List Char :=
  buildType ++ SIGNING_PROPERTIES

/-- Lines 256-262 of `prepEnv`: with a credentials payload the
signing-properties file is overwritten with `TEMPLATE` plus the payload;
without one it is removed, but only when `isAutoGenerated` holds for it. -/
def prepEnvSigning (fs : FS) (buildType : List Char)
    (packageInfo : Option (List Char)) : FS :=
  match packageInfo with
  | some pi => fsUpdate fs (sigPath buildType) (TEMPLATE ++ pi)
  | none =>
    if isAutoGenerated fs (sigPath buildType) then fsRemove fs (sigPath buildType)
    else fs

/-- Lines 298-303 of `clean`: for the debug and then the release variant,
remove the signing-properties file only when `isAutoGenerated` holds. -/
def cleanSigning (fs : FS) : FS :=
  ["debug".data, "release".data].foldl
    (fun acc config =>
      if isAutoGenerated acc (sigPath config) then fsRemove acc (sigPath config)
      else acc)
    fs

/-- JavaScript `\s` (the characters relevant here; inside one line of the
properties file only the first of these can occur). -/
def isJsSpace (c : Char) : Bool :=
  c = ' ' || c = '\t' || c = '\x0b' || c = '\x0c' || c = '\u00a0'
    || c = '\ufeff' || isLineTerm c

/-- The segments of the text between line terminators.  With the `m` flag,
`^` matches after every line terminator and `$` before every line
terminator, so the per-family regex of `readProjectProperties` matches
segment by segment. -/
def splitLines : List Char → List (List Char)
  | [] => [[]]
  | c :: rest =>
    if isLineTerm c then [] :: splitLines rest
    else
      match splitLines rest with
      | [] => [[c]]
      | l :: ls => (c :: l) :: ls

/-- One match of `/^\s*PREFIX\d+=(.*)(?:\s|$)/` against one line: optional
leading whitespace, the literal key prefix, at least one digit, `=`, and the
capture is the whole rest of the segment (`.*` is greedy and `$` or a
consumed `\s` closes the match at the segment end). -/
def matchLine (pre line : List Char) : Option (List Char) :=
  let l := line.dropWhile isJsSpace
  if pre.isPrefixOf l then
    let r := l.drop pre.length
    let ds := r.takeWhile isDigitChar
    if ds.isEmpty then none
    else
      match r.drop ds.length with
      | '=' :: v => some v
      | _ => none
  else none

/-- All values matched for one key family, in text order (the repeated
`r.exec(data)` loop of `findAllUniq`, lines 90-96). -/
def lineValues (pre data : List Char) : List (List Char) :=
  (splitLines data).filterMap (matchLine pre)

/-- Key prefix of `android.library.reference.NNN` (line 101). -/
def libRefKey : List Char := "android.library.reference.".data

/-- Key prefix of `cordova.gradle.include.NNN` (line 102). -/
def gradleIncludeKey : List Char := "cordova.gradle.include.".data

/-- Key prefix of `cordova.system.library.NNN` (line 103). -/
def sysLibKey : List Char := "cordova.system.library.".data

/-- `s[m[1]] = 1` on a plain JavaScript object: property creation keeps
insertion order and re-assignment of an existing property changes nothing.
The object is modelled by its key list in insertion order. -/
def objInsert (ks : List (List Char)) (v : List Char) : List (List Char) :=
  if v ∈ ks then ks else ks ++ [v]

/-- Numeric value of a digit string. -/
def toNatValue (s : List Char) : Nat :=
  s.foldl (fun a c => a * 10 + (c.toNat - 48)) 0

/-- Whether a string is a JavaScript array index: the canonical decimal form
(no leading zero except for `"0"` itself) of an integer below 2^32 - 1. -/
def isArrayIndex (s : List Char) : Bool :=
  match s with
  | [] => false
  | ['0'] => true
  | c :: _ => s.all isDigitChar && !(c == '0') && decide (toNatValue s < 4294967295)

/-- Insertion into a list kept ascending by numeric value. -/
def insertByVal (x : List Char) : List (List Char) → List (List Char)
  | [] => [x]
  | y :: ys =>
    if toNatValue x ≤ toNatValue y then x :: y :: ys else y :: insertByVal x ys

/-- Insertion sort by numeric value. -/
def sortByVal (l : List (List Char)) : List (List Char) :=
  l.foldr insertByVal []

/-- `Object.keys` of a plain object whose keys were created in the order of
`ks`: array-index keys first, in ascending numeric order, then the remaining
keys in insertion order. -/
def jsObjectKeys (ks : List (List Char)) : List (List Char) :=
  sortByVal (ks.filter isArrayIndex) ++ ks.filter (fun k => !isArrayIndex k)

/-- `findAllUniq(data, r)` (lines 90-97) for the key family `pre`: insert
every matched value as an object key, then take `Object.keys`. -/
def findAllUniq (pre data : List Char) : List (List Char) :=
  jsObjectKeys ((lineValues pre data).foldl objInsert [])

/-- `readProjectProperties` (lines 89-105) on the text of
project.properties. -/
def readProjectProperties (data : List Char) : ProjectProperties where
  libs := findAllUniq libRefKey data
  gradleIncludes := findAllUniq gradleIncludeKey data
  systemLibs := findAllUniq sysLibKey data

/-- Spec-side first-seen deduplication: keep the first of every group of
equal values. -/
def dedupFirst : List (List Char) → List (List Char)
  | [] => []
  | v :: vs => v :: dedupFirst (vs.filter (fun x => x != v))
termination_by l => l.length
decreasing_by
  simp only [List.length_cons]
  exact Nat.lt_succ_of_le (List.length_filter_le _ _)

/-- The order actually produced by `findAllUniq`: first-seen order of the
distinct values, except that array-index-shaped values are hoisted to the
front in ascending numeric order. -/
def specOrder (vs : List (List Char)) : List (List Char) :=
  sortByVal ((dedupFirst vs).filter isArrayIndex)
    ++ (dedupFirst vs).filter (fun v => !isArrayIndex v)

example : twoColonMatch "a:b:c".data = true := by decide
example : twoColonMatch ":\n:".data = false := by decide
example : resolveSystemLib "extras/android/support/v4".data
    = .ok "com.android.support:support-v4:+".data := by decide
example : resolveSystemLib "some/random/path".data
    = .error (.cordovaError (unsupportedMsg ++ "some/random/path".data)) := by
  decide
example : libNameOf "myapp".data "myapp-core-lib".data = "core-lib".data := by
  decide
example : libNameOf "myapp".data "unrelated-lib".data = "unrelated-lib".data := by
  decide
example :
    markerReplace "S".data "E".data "$1 mid $2".data "aa S xx E bb".data
      = "aa S mid E bb".data := by decide
example :
    markerReplace "S".data "E".data "$&|$`|$'".data "aa S x E bb".data
      = "aa S x E|aa | bb bb".data := by decide
example :
    getSubstitution "M".data "B".data "A".data "X".data "Y".data
      "a$&b$$c".data = "aMb$c".data := by decide
example :
    getSubstitution "M".data "B".data "A".data "X".data "Y".data
      "$1$2$3$12".data = "XY$3X2".data := by decide
example :
    getSubstitution "M".data "B".data "A".data "X".data "Y".data
      "$01-$02-$00-$10".data = "X-Y-$00-X0".data := by decide


/-! ### Occurrence search: basic facts -/

theorem occursAtB_iff {pat s : List Char} {i : Nat} :
    occursAtB pat s i = true ↔ pat <+: s.drop i := by
  simp [occursAtB]

theorem mem_occIdxs {pat s : List Char} {i : Nat} :
    i ∈ occIdxs pat s ↔ i < s.length + 1 ∧ occursAtB pat s i = true := by
  simp [occIdxs, List.mem_filter, List.mem_range]

theorem occIdxs_pairwise (pat s : List Char) :
    (occIdxs pat s).Pairwise (· < ·) :=
  (List.pairwise_lt_range _).filter _

theorem findFirst_mem {pat s : List Char} {i : Nat}
    (h : findFirst pat s = some i) : i ∈ occIdxs pat s := by
  unfold findFirst at h
  cases hx : occIdxs pat s with
  | nil => rw [hx] at h; cases h
  | cons a l =>
    rw [hx, List.head?_cons] at h
    cases h
    exact List.mem_cons_self _ _

theorem findFirst_occurs {pat s : List Char} {i : Nat}
    (h : findFirst pat s = some i) : occursAtB pat s i = true :=
  (mem_occIdxs.mp (findFirst_mem h)).2

theorem findFirst_le_length {pat s : List Char} {i : Nat}
    (h : findFirst pat s = some i) : i ≤ s.length := by
  have := (mem_occIdxs.mp (findFirst_mem h)).1
  omega

theorem findFirst_min {pat s : List Char} {i j : Nat}
    (h : findFirst pat s = some i) (hj : j < i) : occursAtB pat s j = false := by
  by_contra hc
  rw [Bool.not_eq_false] at hc
  have hjm : j ∈ occIdxs pat s := by
    refine mem_occIdxs.mpr ⟨?_, hc⟩
    have := (mem_occIdxs.mp (findFirst_mem h)).1
    omega
  obtain ⟨tl, hx⟩ : ∃ tl, occIdxs pat s = i :: tl := by
    unfold findFirst at h
    cases hx : occIdxs pat s with
    | nil => rw [hx] at h; cases h
    | cons a l =>
      rw [hx, List.head?_cons] at h
      cases h
      exact ⟨l, rfl⟩
  have hp := occIdxs_pairwise pat s
  rw [hx] at hp hjm
  rcases List.mem_cons.mp hjm with rfl | hmem
  · exact absurd hj (lt_irrefl _)
  · have := (List.pairwise_cons.mp hp).1 j hmem
    omega

theorem findFirst_isSome {pat s : List Char} {i : Nat}
    (hle : i < s.length + 1) (hocc : occursAtB pat s i = true) :
    ∃ j, findFirst pat s = some j ∧ j ≤ i := by
  have hm : i ∈ occIdxs pat s := mem_occIdxs.mpr ⟨hle, hocc⟩
  cases hx : occIdxs pat s with
  | nil => rw [hx] at hm; cases hm
  | cons a l =>
    refine ⟨a, by unfold findFirst; rw [hx, List.head?_cons], ?_⟩
    rw [hx] at hm
    rcases List.mem_cons.mp hm with rfl | hmem
    · exact le_refl _
    · have hp := occIdxs_pairwise pat s
      rw [hx] at hp
      exact le_of_lt ((List.pairwise_cons.mp hp).1 i hmem)

theorem findFirst_none {pat s : List Char} (h : findFirst pat s = none)
    {i : Nat} (hle : i < s.length + 1) : occursAtB pat s i = false := by
  have hx : occIdxs pat s = [] := by
    unfold findFirst at h
    exact List.head?_eq_none_iff.mp h
  by_contra hc
  rw [Bool.not_eq_false] at hc
  have : i ∈ occIdxs pat s := mem_occIdxs.mpr ⟨hle, hc⟩
  rw [hx] at this
  cases this

theorem occursAtB_le {pat s : List Char} {i : Nat}
    (hle : i ≤ s.length) (h : occursAtB pat s i = true) :
    i + pat.length ≤ s.length := by
  rw [occursAtB_iff] at h
  have := h.length_le
  rw [List.length_drop] at this
  omega

theorem occIdxs_singleton_first {pat s : List Char} {i : Nat}
    (h : occIdxs pat s = [i]) : findFirst pat s = some i := by
  unfold findFirst
  rw [h, List.head?_cons]

theorem occIdxs_singleton_last {pat s : List Char} {i : Nat}
    (h : occIdxs pat s = [i]) : findLast pat s = some i := by
  unfold findLast
  rw [h]
  rfl

theorem occIdxs_nil_first {pat s : List Char}
    (h : occIdxs pat s = []) : findFirst pat s = none := by
  unfold findFirst
  rw [h]
  rfl

theorem occursAtB_append_left {pat s t : List Char} {i : Nat}
    (hle : i ≤ s.length) (h : occursAtB pat s i = true) :
    occursAtB pat (s ++ t) i = true := by
  rw [occursAtB_iff] at h ⊢
  rw [List.drop_append_of_le_length hle]
  exact h.trans (List.prefix_append _ _)

theorem drop_append2 (a b rest : List Char) :
    (a ++ (b ++ rest)).drop (a.length + b.length) = rest := by
  rw [← List.append_assoc, ← List.length_append, List.drop_left]

/-! ### JavaScript string replace: basic facts -/

theorem jsReplaceFirst_of_none {s pat rep : List Char}
    (h : findFirst pat s = none) : jsReplaceFirst s pat rep = s := by
  unfold jsReplaceFirst
  rw [h]

theorem jsReplaceFirst_of_some {s pat : List Char} {i : Nat}
    (h : findFirst pat s = some i) :
    jsReplaceFirst s pat [] = s.take i ++ s.drop (i + pat.length) := by
  unfold jsReplaceFirst
  rw [h]
  simp

theorem length_jsReplaceFirst_of_some {s pat : List Char} {i : Nat}
    (h : findFirst pat s = some i) :
    (jsReplaceFirst s pat []).length = s.length - pat.length := by
  rw [jsReplaceFirst_of_some h, List.length_append, List.length_take,
    List.length_drop]
  have h1 : i ≤ s.length := findFirst_le_length h
  have h2 : i + pat.length ≤ s.length := occursAtB_le h1 (findFirst_occurs h)
  omega

theorem jsReplaceFirst_ne {s pat : List Char} {i : Nat}
    (hp : pat ≠ []) (h : findFirst pat s = some i) :
    jsReplaceFirst s pat [] ≠ s := by
  intro he
  have hl := length_jsReplaceFirst_of_some h
  rw [he] at hl
  have h1 : i ≤ s.length := findFirst_le_length h
  have h2 : i + pat.length ≤ s.length := occursAtB_le h1 (findFirst_occurs h)
  have hp1 : 0 < pat.length := List.length_pos.mpr hp
  omega

/-! ### Positive-offset first occurrence -/

theorem findFirst_pos_iff {pat s : List Char} (hp : pat ≠ []) :
    (∃ i, findFirst pat s = some i ∧ 0 < i) ↔
      ((∃ i, occursAtB pat s i = true) ∧ occursAtB pat s 0 = false) := by
  constructor
  · rintro ⟨i, hf, hpos⟩
    exact ⟨⟨i, findFirst_occurs hf⟩, findFirst_min hf hpos⟩
  · rintro ⟨⟨i, hi⟩, h0⟩
    have hle : i < s.length + 1 := by
      by_contra hgt
      push_neg at hgt
      rw [occursAtB_iff, List.drop_eq_nil_of_le (by omega)] at hi
      exact hp (List.prefix_nil.mp hi)
    obtain ⟨j, hj, _⟩ := findFirst_isSome hle hi
    refine ⟨j, hj, ?_⟩
    rcases Nat.eq_zero_or_pos j with rfl | hpos
    · have hocc := findFirst_occurs hj
      exact absurd (h0.symm.trans hocc) Bool.noConfusion
    · exact hpos

/-- Characterization of `isAutoGenerated`: the file exists, its content
contains the marker, and the content does not begin with the marker (so the
first occurrence of the marker is at a strictly positive offset). -/
theorem isAutoGenerated_iff (fs : FS) (file : List Char) :
    isAutoGenerated fs file = true ↔
      ∃ c, fs file = some c ∧ (∃ i, occursAtB MARKER c i = true) ∧
        occursAtB MARKER c 0 = false := by
  unfold isAutoGenerated
  constructor
  · intro h
    split at h
    · cases h
    next c heq =>
      split at h
      · cases h
      next i hf =>
        exact ⟨c, heq,
          (findFirst_pos_iff (by decide)).mp ⟨i, hf, of_decide_eq_true h⟩⟩
  · rintro ⟨c, hc, hrest⟩
    obtain ⟨i, hf, hpos⟩ := (findFirst_pos_iff (by decide)).mpr hrest
    simp only [hc, hf]
    exact decide_eq_true hpos

theorem isAutoGenerated_congr {fs gs : FS} {p : List Char}
    (h : fs p = gs p) : isAutoGenerated fs p = isAutoGenerated gs p := by
  unfold isAutoGenerated
  rw [h]

/-! ### Claims C8, C9, C10: generated-file lifecycle -/

/-- Claim C8, counterexample: a file whose content is the marker phrase
written twice does contain the marker phrase starting at a strictly positive
offset (at `MARKER.length`), and the file exists, yet `isAutoGenerated`
returns false, because `indexOf` finds the occurrence at offset 0. -/
theorem c8_counterexample :
    ((fun q => if q = "f".data then some (MARKER ++ MARKER) else none : FS)
        "f".data = some (MARKER ++ MARKER)) ∧
    occursAtB MARKER (MARKER ++ MARKER) MARKER.length = true ∧
    0 < MARKER.length ∧
    isAutoGenerated
      (fun q => if q = "f".data then some (MARKER ++ MARKER) else none)
      "f".data = false :=
  ⟨rfl, by decide, by decide, by decide⟩

/-- Claim C8 (amended): `isAutoGenerated path` returns true if and only if
the file exists, its content contains the fixed marker phrase, and the
content does not begin with the marker phrase -- that is, iff the *first*
occurrence of the marker phrase is at a strictly positive offset.  In
particular a file whose very first characters are the marker phrase is not
treated as auto-generated, and a file whose first marker occurrence is at a
later offset is. -/
theorem c8_isAutoGenerated_characterization (fs : FS) (file : List Char) :
    isAutoGenerated fs file = true ↔
      ∃ c, fs file = some c ∧ (∃ i, occursAtB MARKER c i = true) ∧
        occursAtB MARKER c 0 = false :=
  isAutoGenerated_iff fs file

/-- Claim C9: with no credentials payload, `prepEnv` deletes the per-variant
signing-properties file only if `isAutoGenerated` holds for it; a
signing-properties file for which `isAutoGenerated` fails (a user-authored
file) is left on disk unchanged both by the environment preparation and by
the clean operation (for either variant). -/
theorem c9_signing_preservation (fs : FS) (bt : List Char) :
    (isAutoGenerated fs (sigPath bt) = false → prepEnvSigning fs bt none = fs) ∧
    (prepEnvSigning fs bt none (sigPath bt) = none →
      fs (sigPath bt) = none ∨ isAutoGenerated fs (sigPath bt) = true) ∧
    (isAutoGenerated fs (sigPath "debug".data) = false →
      cleanSigning fs (sigPath "debug".data) = fs (sigPath "debug".data)) ∧
    (isAutoGenerated fs (sigPath "release".data) = false →
      cleanSigning fs (sigPath "release".data) = fs (sigPath "release".data)) := by
  have hne : sigPath "debug".data ≠ sigPath "release".data := by decide
  refine ⟨?_, ?_, ?_, ?_⟩
  · intro h
    simp [prepEnvSigning, h]
  · intro h
    by_cases hauto : isAutoGenerated fs (sigPath bt) = true
    · exact Or.inr hauto
    · rw [Bool.not_eq_true] at hauto
      left
      simpa [prepEnvSigning, hauto] using h
  · intro h
    simp only [cleanSigning, List.foldl, h]
    by_cases hr : isAutoGenerated fs (sigPath "release".data) = true
    · simp only [hr, if_true, if_false, Bool.false_eq_true, fsRemove]
      rw [if_neg hne]
    · rw [Bool.not_eq_true] at hr
      simp [hr]
  · intro h
    simp only [cleanSigning, List.foldl]
    by_cases hd : isAutoGenerated fs (sigPath "debug".data) = true
    · have hv : fsRemove fs (sigPath "debug".data) (sigPath "release".data)
          = fs (sigPath "release".data) := by
        unfold fsRemove
        rw [if_neg (Ne.symm hne)]
      have hcongr := isAutoGenerated_congr hv (p := sigPath "release".data)
      simp only [hd, if_true]
      rw [hcongr, h]
      simp only [Bool.false_eq_true, if_false]
      exact hv
    · rw [Bool.not_eq_true] at hd
      simp [hd, h]

/-- Witness for claim C9: a user-authored debug signing-properties file
(no marker in its content) survives `prepEnv` untouched. -/
theorem c9_witness :
    prepEnvSigning
      (fun q => if q = sigPath "debug".data
        then some "keystore=user.p12".data else none)
      "debug".data none
    = (fun q => if q = sigPath "debug".data
        then some "keystore=user.p12".data else none) :=
  (c9_signing_preservation _ _).1 (by decide)

/-- Claim C10: a signing-properties file freshly written by `prepEnv` from a
credentials payload (`TEMPLATE` followed by the payload) always contains the
marker phrase at a strictly positive offset, so `isAutoGenerated` holds for
it -- every engine-written signing-properties file is classified as
engine-owned and thus eligible for deletion. -/
theorem c10_written_signing_is_autogenerated (fs : FS) (bt pi : List Char) :
    isAutoGenerated (prepEnvSigning fs bt (some pi)) (sigPath bt) = true := by
  rw [isAutoGenerated_iff]
  refine ⟨TEMPLATE ++ pi, by simp [prepEnvSigning, fsUpdate], ?_, ?_⟩
  · refine ⟨"# This file is automatically generated.\n# Do not modify this file -- ".data.length, ?_⟩
    rw [occursAtB_iff]
    unfold TEMPLATE
    simp only [List.append_assoc]
    rw [List.drop_left]
    exact List.prefix_append _ _
  · rw [Bool.eq_false_iff]
    intro h
    rw [occursAtB_iff, List.drop_zero] at h
    obtain ⟨t, ht⟩ := h
    have h1 := congrArg List.head? ht
    rw [List.head?_append, List.head?_append] at h1
    have hm : MARKER.head? = some 'Y' := by decide
    have htl : TEMPLATE.head? = some '#' := by decide
    rw [hm, htl, Option.or_some, Option.or_some] at h1
    exact absurd (Option.some.inj h1) (by decide)

/-! ### Claims C3, C4, C5: library resolution and module names -/

theorem scanMappings_first_match {t1 t2 : List SysLibRule} {r : SysLibRule}
    {p out : List Char} (h1 : ∀ r' ∈ t1, r' p = none) (h2 : r p = some out) :
    scanMappings (t1 ++ r :: t2) p = some out := by
  induction t1 with
  | nil => simp [scanMappings, h2]
  | cons a t ih =>
    have ha : a p = none := h1 a (List.mem_cons_self _ _)
    simp only [List.cons_append, scanMappings, ha]
    exact ih (fun r2 hr2 => h1 r2 (List.mem_cons_of_mem _ hr2))

/-- Claim C3 (amended): a raw value containing two colons *with no line
terminator between them* is passed through unchanged, whatever the rule
table holds (the `/:.*:/` test, not a bare count of colons -- though for
values coming from the properties parser the two coincide, since parsed
values contain no line terminators); otherwise the rule table is scanned in
order and the first matching rule alone determines the result, regardless of
later rules. -/
theorem c3_resolve_first_match (p out : List Char)
    (t1 t2 : List SysLibRule) (r : SysLibRule) :
    (twoColonMatch p = true → ∀ table, resolveSystemLibWith table p = .ok p) ∧
    (twoColonMatch p = false → (∀ r2 ∈ t1, r2 p = none) → r p = some out →
      resolveSystemLibWith (t1 ++ r :: t2) p = .ok out) ∧
    resolveSystemLib p = resolveSystemLibWith SYSTEM_LIBRARY_MAPPINGS p := by
  refine ⟨?_, ?_, rfl⟩
  · intro h table
    simp [resolveSystemLibWith, h]
  · intro h h1 h2
    simp [resolveSystemLibWith, h, scanMappings_first_match h1 h2]

/-- Claim C3, counterexample: the raw value ":\n:" contains two colon
characters, yet resolution does not return it unchanged -- the `/:.*:/`
test fails across the line terminator, the rule table is consulted, no rule
matches, and resolution fails. -/
theorem c3_counterexample :
    2 ≤ ":\n:".data.count ':' ∧
    resolveSystemLib ":\n:".data ≠ .ok ":\n:".data ∧
    resolveSystemLib ":\n:".data
      = .error (.cordovaError (unsupportedMsg ++ ":\n:".data)) :=
  ⟨by decide, by decide, by decide⟩

/-- Witness for claim C3: the second table rule resolves the play-services
path, with the first rule not matching. -/
theorem c3_witness :
    resolveSystemLib
      "google/google_play_services/libproject/google-play-services_lib".data
      = .ok "com.google.android.gms:play-services:+".data := by
  have h := (c3_resolve_first_match
      "google/google_play_services/libproject/google-play-services_lib".data
      "com.google.android.gms:play-services:+".data
      [supportLibRule] [] playServicesRule).2.1
    (by decide)
    (by
      intro r2 hr2
      rw [List.mem_singleton] at hr2
      subst hr2
      decide)
    (by decide)
  exact h

/-- Claim C4: a raw system-library value that fails the two-colon test and
matches no rule in the mapping table makes resolution fail with a
`CordovaError` whose message names the offending raw value, and the
dependency-list builder propagates that failure instead of skipping the
library. -/
theorem c4_unsupported_library (p : List Char)
    (h1 : twoColonMatch p = false)
    (h2 : scanMappings SYSTEM_LIBRARY_MAPPINGS p = none) :
    resolveSystemLib p = .error (.cordovaError (unsupportedMsg ++ p)) ∧
    ∀ post, sysDeps (p :: post) = .error (.cordovaError (unsupportedMsg ++ p)) := by
  have hres : resolveSystemLib p = .error (.cordovaError (unsupportedMsg ++ p)) := by
    simp [resolveSystemLib, resolveSystemLibWith, h1, h2]
  refine ⟨hres, fun post => ?_⟩
  simp only [sysDeps, hres]
  rfl

/-- Witness for claim C4: the unsupported value from the specification. -/
theorem c4_witness :
    resolveSystemLib "some/random/path".data
      = .error (.cordovaError (unsupportedMsg ++ "some/random/path".data)) :=
  (c4_unsupported_library "some/random/path".data (by decide) (by decide)).1

/-- Claim C5: the module name is the separator-canonicalized raw path with
the host name followed by a dash stripped; only the first (leftmost)
occurrence is stripped, exactly once, and nothing is stripped when the name
is never immediately followed by the dash (no stripping on partial matches
elsewhere in the string).  Raw path "myapp-core-lib" under host "myapp"
yields "core-lib", and "unrelated-lib" stays unchanged. -/
theorem c5_module_name_stripping (name p : List Char) :
    (libNameOf "myapp".data "myapp-core-lib".data = "core-lib".data) ∧
    (libNameOf "myapp".data "unrelated-lib".data = "unrelated-lib".data) ∧
    (findFirst (name ++ ['-']) (canonColon p) = none →
      libNameOf name p = canonColon p) ∧
    (∀ i, findFirst (name ++ ['-']) (canonColon p) = some i →
      libNameOf name p
          = (canonColon p).take i ++ (canonColon p).drop (i + (name.length + 1)) ∧
      (libNameOf name p).length = (canonColon p).length - (name.length + 1)) := by
  refine ⟨by decide, by decide, ?_, ?_⟩
  · intro h
    unfold libNameOf
    exact jsReplaceFirst_of_none h
  · intro i h
    have hplen : (name ++ ['-']).length = name.length + 1 := by simp
    constructor
    · unfold libNameOf
      rw [jsReplaceFirst_of_some h, hplen]
    · unfold libNameOf
      rw [length_jsReplaceFirst_of_some h, hplen]

/-- Witness for claim C5: "myapplication-lib" contains the host name "myapp"
but never immediately followed by a dash, so nothing is stripped. -/
theorem c5_witness :
    libNameOf "myapp".data "myapplication-lib".data
      = canonColon "myapplication-lib".data :=
  (c5_module_name_stripping "myapp".data "myapplication-lib".data).2.2.1
    (by decide)

/-! ### Claim C7: settings manifest generation -/

theorem stripped_iff (name p : List Char) :
    (findFirst (name ++ ['-']) (canonColon p)).isSome = true ↔
      libNameOf name p ≠ canonColon p := by
  cases hf : findFirst (name ++ ['-']) (canonColon p) with
  | none =>
    simp only [Option.isSome_none, Bool.false_eq_true, false_iff, ne_eq,
      not_not]
    exact jsReplaceFirst_of_none hf
  | some i =>
    simp only [Option.isSome_some, true_iff]
    exact jsReplaceFirst_ne (by simp) hf

/-- Claim C7: the settings manifest consists of the fixed generated-file
header comment, then the root-module declaration, then exactly one module
declaration per sub-project (by module name, in the order of the parsed
sub-project sequence), with the explicit `projectDir` path-override pointing
at the raw path emitted exactly for those sub-projects whose module name
differs from their canonicalized path (i.e. whose prefix was stripped); and
`prepBuildFiles` always fully overwrites the settings file with this
content, whatever its previous content and even when a later step fails. -/
theorem c7_settings_manifest (name : List Char) (subs : List (List Char)) :
    (settingsText name subs
      = "// GENERATED FILE - DO NOT EDIT\n".data ++ "include \":\"\n".data ++
        (subs.map (fun p =>
          "include \":".data ++ libNameOf name p ++ "\"\n".data ++
          (if libNameOf name p ≠ canonColon p then
            "project(\":".data ++ libNameOf name p
              ++ "\").projectDir = new File(\"".data ++ p ++ "\")\n".data
          else []))).flatten) ∧
    ∀ (fs : FS) (subGradle : List Char → List Char) (props : ProjectProperties),
      (prepBuildFilesModel fs name subGradle props).2 settingsGradlePath
        = some (settingsText name props.libs) := by
  constructor
  · unfold settingsText
    have hfun : settingsEntry name = (fun p =>
        "include \":".data ++ libNameOf name p ++ "\"\n".data ++
        (if libNameOf name p ≠ canonColon p then
          "project(\":".data ++ libNameOf name p
            ++ "\").projectDir = new File(\"".data ++ p ++ "\")\n".data
        else [])) := by
      funext p
      unfold settingsEntry
      by_cases hs : (findFirst (name ++ ['-']) (canonColon p)).isSome = true
      · rw [if_pos hs, if_pos ((stripped_iff name p).mp hs)]
      · rw [if_neg hs, if_neg (fun hne => hs ((stripped_iff name p).mpr hne))]
    rw [hfun]
  · intro fs subGradle props
    have hset : fsUpdate fs settingsGradlePath (settingsText name props.libs)
        settingsGradlePath = some (settingsText name props.libs) := by
      unfold fsUpdate
      rw [if_pos rfl]
    unfold prepBuildFilesModel
    dsimp only
    split
    · exact hset
    · split
      · exact hset
      next s2 hs2 =>
        show fsUpdate (fsUpdate fs settingsGradlePath (settingsText name props.libs))
          buildGradlePath s2 settingsGradlePath = some (settingsText name props.libs)
        unfold fsUpdate
        rw [if_neg (by decide : ¬ settingsGradlePath = buildGradlePath), if_pos rfl]

/-! ### Claim C1: behavior when markers are missing, and failure atomicity -/

/-- Claim C1 (amended): the absence of the injection markers is not an
error.  When neither start marker occurs in the build descriptor, injection
succeeds and returns the descriptor unchanged (a non-matching marker pair
makes its replacement a silent no-op); no MissingInjectionMarkers failure
exists.  The only failures of the preparation step are the
unsupported-system-library error and the failure to read the descriptor, and
on any failure the build descriptor on disk remains byte-identical to its
pre-run content, because the write happens only after full success. -/
theorem c1_injection_failure_behavior (fs : FS) (name : List Char)
    (subGradle : List Char → List Char) (props : ProjectProperties)
    (d : List Char) :
    (∀ dl, buildDepsList name subGradle props.libs props.systemLibs = .ok dl →
      occIdxs subDepsStart d = [] → occIdxs pluginExtStart d = [] →
      injectBuildGradle name subGradle props.libs props.systemLibs
        props.gradleIncludes d = .ok d) ∧
    (∀ e, (prepBuildFilesModel fs name subGradle props).1 = .error e →
      (prepBuildFilesModel fs name subGradle props).2 buildGradlePath
        = fs buildGradlePath) := by
  constructor
  · intro dl hdl h1 h2
    have hm1 : markerReplace subDepsStart subDepsEnd
        ("$1\n".data ++ dl ++ "    $2".data) d = d := by
      simp only [markerReplace, occIdxs_nil_first h1]
    have hm2 : markerReplace pluginExtStart pluginExtEnd
        ("$1\n".data ++ includeListOf props.gradleIncludes ++ "$2".data) d
        = d := by
      simp only [markerReplace, occIdxs_nil_first h2]
    simp only [injectBuildGradle, hdl, hm1, hm2]
  · intro e he
    have hb : fsUpdate fs settingsGradlePath (settingsText name props.libs)
        buildGradlePath = fs buildGradlePath := by
      unfold fsUpdate
      rw [if_neg (by decide : ¬ buildGradlePath = settingsGradlePath)]
    unfold prepBuildFilesModel at he ⊢
    dsimp only at he ⊢
    revert he
    split
    · intro _
      exact hb
    · split
      · intro _
        exact hb
      · intro he
        exact Except.noConfusion he

/-- Claim C1, counterexample: a build descriptor containing no injection
marker at all; the preparation step succeeds -- no error of any kind is
raised -- and the descriptor is written back unchanged. -/
theorem c1_counterexample :
    ((prepBuildFilesModel
        (fun q => if q = buildGradlePath then some "hello world".data else none)
        "app".data (fun _ => []) ⟨[], [], []⟩).1 = .ok ()) ∧
    ((prepBuildFilesModel
        (fun q => if q = buildGradlePath then some "hello world".data else none)
        "app".data (fun _ => []) ⟨[], [], []⟩).2 buildGradlePath
      = some "hello world".data) :=
  ⟨by decide, by decide⟩

/-- Witness for claim C1: with an unsupported system library the preparation
fails, and the build descriptor on disk is untouched. -/
theorem c1_witness :
    (prepBuildFilesModel
        (fun q => if q = buildGradlePath then some "x".data else none)
        "app".data (fun _ => []) ⟨[], [], ["some/random/path".data]⟩).2
        buildGradlePath
      = (fun q => if q = buildGradlePath then some "x".data else none : FS)
          buildGradlePath :=
  (c1_injection_failure_behavior _ _ _ _ []).2
    (.cordovaError (unsupportedMsg ++ "some/random/path".data)) (by decide)

/-! ### Claim C2: frame and idempotence of the marker splice -/

theorem getSubstitution_cons_ne (matched before after cap1 cap2 : List Char)
    (c : Char) (rest : List Char) (hc : ¬ c = '$') :
    getSubstitution matched before after cap1 cap2 (c :: rest)
      = c :: getSubstitution matched before after cap1 cap2 rest := by
  rw [getSubstitution.eq_def]
  split
  all_goals simp_all

/-- A dollar-free piece of the replacement string is copied verbatim by
GetSubstitution. -/
theorem getSubstitution_append_dollarFree
    (matched before after cap1 cap2 : List Char)
    {t : List Char} (ht : '$' ∉ t) (u : List Char) :
    getSubstitution matched before after cap1 cap2 (t ++ u)
      = t ++ getSubstitution matched before after cap1 cap2 u := by
  induction t with
  | nil => simp
  | cons c cs ih =>
    have hc : ¬ c = '$' := fun h => ht (h ▸ List.mem_cons_self c cs)
    have hcs : '$' ∉ cs := fun h => ht (List.mem_cons_of_mem c h)
    rw [List.cons_append,
      getSubstitution_cons_ne matched before after cap1 cap2 c _ hc, ih hcs,
      List.cons_append]

/-- GetSubstitution on the dependency-block template
`'$1\n' + depsList + '    $2'` when `depsList` contains no dollar: group 1,
a newline, the list verbatim, four spaces, group 2. -/
theorem getSub_depsTemplate (matched before after sp ep dl : List Char)
    (hd : '$' ∉ dl) :
    getSubstitution matched before after sp ep
        ("$1\n".data ++ dl ++ "    $2".data)
      = sp ++ ('\n' :: (dl ++ ("    ".data ++ ep))) := by
  have h1 : getSubstitution matched before after sp ep
      ("$1\n".data ++ dl ++ "    $2".data)
      = sp ++ '\n' :: getSubstitution matched before after sp ep
          (dl ++ "    $2".data) := rfl
  rw [h1, getSubstitution_append_dollarFree matched before after sp ep hd]
  rfl

/-- GetSubstitution on the include-extensions template
`'$1\n' + includeList + '$2'` when `includeList` contains no dollar. -/
theorem getSub_extTemplate (matched before after sp ep il : List Char)
    (hd : '$' ∉ il) :
    getSubstitution matched before after sp ep ("$1\n".data ++ il ++ "$2".data)
      = sp ++ ('\n' :: (il ++ ep)) := by
  have h1 : getSubstitution matched before after sp ep
      ("$1\n".data ++ il ++ "$2".data)
      = sp ++ '\n' :: getSubstitution matched before after sp ep
          (il ++ "$2".data) := rfl
  rw [h1, getSubstitution_append_dollarFree matched before after sp ep hd]
  rfl

/-- When the start marker occurs exactly once, at the start of the engine
region, and the end marker occurs exactly once in the text after the start
marker, the splice keeps the prefix and suffix verbatim and replaces the
whole matched span by the GetSubstitution of the replacement string. -/
theorem markerReplace_split {sp ep repl s X Y Z W out : List Char}
    (hs : s = X ++ (sp ++ W))
    (hW : W = Y ++ (ep ++ Z))
    (hfirst : occIdxs sp s = [X.length])
    (hlast : occIdxs ep W = [Y.length])
    (hsub : getSubstitution (sp ++ Y ++ ep) X Z sp ep repl = out) :
    markerReplace sp ep repl s = X ++ (out ++ Z) := by
  subst hs
  subst hW
  have hf := occIdxs_singleton_first hfirst
  have hd1 : (X ++ (sp ++ (Y ++ (ep ++ Z)))).drop (X.length + sp.length)
      = Y ++ (ep ++ Z) := drop_append2 X sp (Y ++ (ep ++ Z))
  have hl := occIdxs_singleton_last hlast
  simp only [markerReplace, hf, hd1, hl]
  rw [List.take_left, List.take_left, drop_append2, hsub]
  simp only [List.append_assoc]

/-- Claim C2 (amended): provided each marker occurs exactly once and in the
expected order -- in the original descriptor and still after each splice
(the generated content introduces no marker occurrences) -- and the
generated dependency and include lists contain no dollar character (so the
replacement-string dollar substitution of String.replace inserts them
verbatim), injection replaces only the text strictly between the
dependency-marker pair and the text strictly between the extensions-marker
pair; all other content, including the marker strings themselves, is
byte-identical before and after the run, and a second run on the result with
the same properties reproduces the result byte for byte (so in particular
the marker-region content of run two equals that of run one). -/
theorem c2_injection_frame_and_idempotence
    (name : List Char) (subGradle : List Char → List Char)
    (subs syslibs incs : List (List Char))
    (P A Q B R dl : List Char)
    (hdl : buildDepsList name subGradle subs syslibs = .ok dl)
    (hq1 : '$' ∉ dl)
    (hq2 : '$' ∉ includeListOf incs)
    (h1 : occIdxs subDepsStart
      (P ++ subDepsStart ++ A ++ subDepsEnd ++ Q ++ pluginExtStart ++ B
        ++ pluginExtEnd ++ R) = [P.length])
    (h2 : occIdxs subDepsEnd
      (A ++ subDepsEnd ++ Q ++ pluginExtStart ++ B ++ pluginExtEnd ++ R)
      = [A.length])
    (h3 : occIdxs pluginExtStart
      (P ++ subDepsStart ++ (['\n'] ++ dl ++ "    ".data) ++ subDepsEnd ++ Q
        ++ pluginExtStart ++ B ++ pluginExtEnd ++ R)
      = [(P ++ subDepsStart ++ (['\n'] ++ dl ++ "    ".data) ++ subDepsEnd
            ++ Q).length])
    (h4 : occIdxs pluginExtEnd (B ++ pluginExtEnd ++ R) = [B.length])
    (h5 : occIdxs subDepsStart
      (P ++ subDepsStart ++ (['\n'] ++ dl ++ "    ".data) ++ subDepsEnd ++ Q
        ++ pluginExtStart ++ (['\n'] ++ includeListOf incs) ++ pluginExtEnd
        ++ R) = [P.length])
    (h6 : occIdxs subDepsEnd
      ((['\n'] ++ dl ++ "    ".data) ++ subDepsEnd ++ Q ++ pluginExtStart
        ++ (['\n'] ++ includeListOf incs) ++ pluginExtEnd ++ R)
      = [(['\n'] ++ dl ++ "    ".data).length])
    (h7 : occIdxs pluginExtStart
      (P ++ subDepsStart ++ (['\n'] ++ dl ++ "    ".data) ++ subDepsEnd ++ Q
        ++ pluginExtStart ++ (['\n'] ++ includeListOf incs) ++ pluginExtEnd
        ++ R)
      = [(P ++ subDepsStart ++ (['\n'] ++ dl ++ "    ".data) ++ subDepsEnd
            ++ Q).length])
    (h8 : occIdxs pluginExtEnd
      ((['\n'] ++ includeListOf incs) ++ pluginExtEnd ++ R)
      = [(['\n'] ++ includeListOf incs).length]) :
    injectBuildGradle name subGradle subs syslibs incs
      (P ++ subDepsStart ++ A ++ subDepsEnd ++ Q ++ pluginExtStart ++ B
        ++ pluginExtEnd ++ R)
      = .ok (P ++ subDepsStart ++ (['\n'] ++ dl ++ "    ".data) ++ subDepsEnd
          ++ Q ++ pluginExtStart ++ (['\n'] ++ includeListOf incs)
          ++ pluginExtEnd ++ R) ∧
    injectBuildGradle name subGradle subs syslibs incs
      (P ++ subDepsStart ++ (['\n'] ++ dl ++ "    ".data) ++ subDepsEnd ++ Q
        ++ pluginExtStart ++ (['\n'] ++ includeListOf incs) ++ pluginExtEnd
        ++ R)
      = .ok (P ++ subDepsStart ++ (['\n'] ++ dl ++ "    ".data) ++ subDepsEnd
          ++ Q ++ pluginExtStart ++ (['\n'] ++ includeListOf incs)
          ++ pluginExtEnd ++ R) := by
  constructor
  · have e1 : markerReplace subDepsStart subDepsEnd
        ("$1\n".data ++ dl ++ "    $2".data)
        (P ++ subDepsStart ++ A ++ subDepsEnd ++ Q ++ pluginExtStart ++ B
          ++ pluginExtEnd ++ R)
        = P ++ ((subDepsStart
            ++ ('\n' :: (dl ++ ("    ".data ++ subDepsEnd))))
          ++ (Q ++ pluginExtStart ++ B ++ pluginExtEnd ++ R)) :=
      markerReplace_split (Y := A)
        (W := A ++ subDepsEnd ++ Q ++ pluginExtStart ++ B ++ pluginExtEnd ++ R)
        (by simp only [List.append_assoc]) (by simp only [List.append_assoc])
        h1 h2 (getSub_depsTemplate _ _ _ _ _ _ hq1)
    have hbr1 : P ++ ((subDepsStart
          ++ ('\n' :: (dl ++ ("    ".data ++ subDepsEnd))))
        ++ (Q ++ pluginExtStart ++ B ++ pluginExtEnd ++ R))
        = P ++ subDepsStart ++ (['\n'] ++ dl ++ "    ".data) ++ subDepsEnd
          ++ Q ++ pluginExtStart ++ B ++ pluginExtEnd ++ R := by
      simp only [List.append_assoc, List.cons_append, List.singleton_append,
        List.nil_append]
    have h3' : occIdxs pluginExtStart
        (P ++ ((subDepsStart
            ++ ('\n' :: (dl ++ ("    ".data ++ subDepsEnd))))
          ++ (Q ++ pluginExtStart ++ B ++ pluginExtEnd ++ R)))
        = [(P ++ subDepsStart ++ (['\n'] ++ dl ++ "    ".data) ++ subDepsEnd
              ++ Q).length] := by
      rw [hbr1]
      exact h3
    have e2 : markerReplace pluginExtStart pluginExtEnd
        ("$1\n".data ++ includeListOf incs ++ "$2".data)
        (P ++ ((subDepsStart
            ++ ('\n' :: (dl ++ ("    ".data ++ subDepsEnd))))
          ++ (Q ++ pluginExtStart ++ B ++ pluginExtEnd ++ R)))
        = (P ++ subDepsStart ++ (['\n'] ++ dl ++ "    ".data) ++ subDepsEnd
            ++ Q)
          ++ ((pluginExtStart
              ++ ('\n' :: (includeListOf incs ++ pluginExtEnd))) ++ R) :=
      markerReplace_split (Y := B) (W := B ++ pluginExtEnd ++ R)
        (by simp only [List.append_assoc, List.cons_append,
          List.singleton_append, List.nil_append])
        (by simp only [List.append_assoc])
        h3' h4 (getSub_extTemplate _ _ _ _ _ _ hq2)
    simp only [injectBuildGradle, hdl]
    rw [e1, e2]
    simp only [List.append_assoc, List.cons_append, List.singleton_append,
        List.nil_append]
  · have e3 : markerReplace subDepsStart subDepsEnd
        ("$1\n".data ++ dl ++ "    $2".data)
        (P ++ subDepsStart ++ (['\n'] ++ dl ++ "    ".data) ++ subDepsEnd
          ++ Q ++ pluginExtStart ++ (['\n'] ++ includeListOf incs)
          ++ pluginExtEnd ++ R)
        = P ++ ((subDepsStart
            ++ ('\n' :: (dl ++ ("    ".data ++ subDepsEnd))))
          ++ (Q ++ pluginExtStart ++ (['\n'] ++ includeListOf incs)
            ++ pluginExtEnd ++ R)) :=
      markerReplace_split (Y := ['\n'] ++ dl ++ "    ".data)
        (W := (['\n'] ++ dl ++ "    ".data) ++ subDepsEnd ++ Q
          ++ pluginExtStart ++ (['\n'] ++ includeListOf incs) ++ pluginExtEnd
          ++ R)
        (by simp only [List.append_assoc, List.cons_append,
          List.singleton_append, List.nil_append])
        (by simp only [List.append_assoc, List.cons_append,
          List.singleton_append, List.nil_append])
        h5 h6 (getSub_depsTemplate _ _ _ _ _ _ hq1)
    have hbr2 : P ++ ((subDepsStart
          ++ ('\n' :: (dl ++ ("    ".data ++ subDepsEnd))))
        ++ (Q ++ pluginExtStart ++ (['\n'] ++ includeListOf incs)
          ++ pluginExtEnd ++ R))
        = P ++ subDepsStart ++ (['\n'] ++ dl ++ "    ".data) ++ subDepsEnd
          ++ Q ++ pluginExtStart ++ (['\n'] ++ includeListOf incs)
          ++ pluginExtEnd ++ R := by
      simp only [List.append_assoc, List.cons_append, List.singleton_append,
        List.nil_append]
    have h7' : occIdxs pluginExtStart
        (P ++ ((subDepsStart
            ++ ('\n' :: (dl ++ ("    ".data ++ subDepsEnd))))
          ++ (Q ++ pluginExtStart ++ (['\n'] ++ includeListOf incs)
            ++ pluginExtEnd ++ R)))
        = [(P ++ subDepsStart ++ (['\n'] ++ dl ++ "    ".data) ++ subDepsEnd
              ++ Q).length] := by
      rw [hbr2]
      exact h7
    have e4 : markerReplace pluginExtStart pluginExtEnd
        ("$1\n".data ++ includeListOf incs ++ "$2".data)
        (P ++ ((subDepsStart
            ++ ('\n' :: (dl ++ ("    ".data ++ subDepsEnd))))
          ++ (Q ++ pluginExtStart ++ (['\n'] ++ includeListOf incs)
            ++ pluginExtEnd ++ R)))
        = (P ++ subDepsStart ++ (['\n'] ++ dl ++ "    ".data) ++ subDepsEnd
            ++ Q)
          ++ ((pluginExtStart
              ++ ('\n' :: (includeListOf incs ++ pluginExtEnd))) ++ R) :=
      markerReplace_split (Y := ['\n'] ++ includeListOf incs)
        (W := (['\n'] ++ includeListOf incs) ++ pluginExtEnd ++ R)
        (by simp only [List.append_assoc, List.cons_append,
          List.singleton_append, List.nil_append])
        (by simp only [List.append_assoc, List.cons_append,
          List.singleton_append, List.nil_append])
        h7' h8 (getSub_extTemplate _ _ _ _ _ _ hq2)
    simp only [injectBuildGradle, hdl]
    rw [e3, e4]
    simp only [List.append_assoc, List.cons_append, List.singleton_append,
        List.nil_append]

/-- Claim C2, counterexample: a build descriptor that contains both marker
pairs, with the extensions pair lying inside the dependency region.  The
greedy dependency splice swallows the extensions markers: after the run the
extensions start-marker line is gone, so content other than the text
strictly between the marker pairs (the marker lines themselves included) is
not byte-identical before and after the run. -/
theorem c2_counterexample :
    injectBuildGradle "app".data (fun _ => []) [] [] []
      ("A ".data ++ subDepsStart ++ " B ".data ++ pluginExtStart ++ " C ".data
        ++ pluginExtEnd ++ " D ".data ++ subDepsEnd ++ " E".data)
      = .ok ("A ".data ++ subDepsStart ++ "\n    ".data ++ subDepsEnd
          ++ " E".data) ∧
    occIdxs pluginExtStart
      ("A ".data ++ subDepsStart ++ " B ".data ++ pluginExtStart ++ " C ".data
        ++ pluginExtEnd ++ " D ".data ++ subDepsEnd ++ " E".data) ≠ [] ∧
    occIdxs pluginExtStart
      ("A ".data ++ subDepsStart ++ "\n    ".data ++ subDepsEnd ++ " E".data)
      = [] :=
  ⟨by decide, by decide, by decide⟩

/-- Witness for claim C2: a well-formed descriptor (each marker occurring
exactly once, dependency region before extensions region) with empty
properties; the splice rewrites exactly the two regions. -/
theorem c2_witness :
    injectBuildGradle "app".data (fun _ => []) [] [] []
      ("p ".data ++ subDepsStart ++ "a".data ++ subDepsEnd ++ "q".data
        ++ pluginExtStart ++ "b".data ++ pluginExtEnd ++ "r".data)
      = .ok ("p ".data ++ subDepsStart ++ (['\n'] ++ [] ++ "    ".data)
          ++ subDepsEnd ++ "q".data ++ pluginExtStart
          ++ (['\n'] ++ includeListOf []) ++ pluginExtEnd ++ "r".data) :=
  (c2_injection_frame_and_idempotence "app".data (fun _ => []) [] [] []
    "p ".data "a".data "q".data "b".data "r".data [] (by decide)
    (by decide) (by decide)
    (by decide) (by decide) (by decide) (by decide)
    (by decide) (by decide) (by decide) (by decide)).1

/-! ### Claim C6: parsing, deduplication and key order -/

theorem dedupFirst_nil : dedupFirst [] = [] := by
  rw [dedupFirst]

theorem dedupFirst_cons (v : List Char) (vs : List (List Char)) :
    dedupFirst (v :: vs) = v :: dedupFirst (vs.filter (fun x => x != v)) := by
  rw [dedupFirst]

theorem mem_dedupFirst_aux (n : Nat) : ∀ l : List (List Char), l.length ≤ n →
    ∀ x, (x ∈ dedupFirst l ↔ x ∈ l) := by
  induction n with
  | zero =>
    intro l hl x
    have hnil : l = [] := List.eq_nil_of_length_eq_zero (Nat.le_zero.mp hl)
    subst hnil
    simp [dedupFirst_nil]
  | succ n ih =>
    intro l hl x
    cases l with
    | nil => simp [dedupFirst_nil]
    | cons v vs =>
      have hlen : (vs.filter (fun x => x != v)).length ≤ n :=
        le_trans (List.length_filter_le _ _)
          (by simpa using Nat.le_of_succ_le_succ hl)
      rw [dedupFirst_cons]
      simp only [List.mem_cons]
      constructor
      · rintro (rfl | hx)
        · exact Or.inl rfl
        · exact Or.inr (List.mem_of_mem_filter ((ih _ hlen x).mp hx))
      · rintro (rfl | hx)
        · exact Or.inl rfl
        · by_cases hxv : x = v
          · exact Or.inl hxv
          · refine Or.inr ((ih _ hlen x).mpr ?_)
            rw [List.mem_filter]
            exact ⟨hx, by simp [bne_iff_ne, hxv]⟩

theorem mem_dedupFirst (l : List (List Char)) (x : List Char) :
    x ∈ dedupFirst l ↔ x ∈ l :=
  mem_dedupFirst_aux l.length l (le_refl _) x

theorem nodup_dedupFirst_aux (n : Nat) : ∀ l : List (List Char),
    l.length ≤ n → (dedupFirst l).Nodup := by
  induction n with
  | zero =>
    intro l hl
    have hnil : l = [] := List.eq_nil_of_length_eq_zero (Nat.le_zero.mp hl)
    subst hnil
    simp [dedupFirst_nil]
  | succ n ih =>
    intro l hl
    cases l with
    | nil => simp [dedupFirst_nil]
    | cons v vs =>
      have hlen : (vs.filter (fun x => x != v)).length ≤ n :=
        le_trans (List.length_filter_le _ _)
          (by simpa using Nat.le_of_succ_le_succ hl)
      rw [dedupFirst_cons, List.nodup_cons]
      refine ⟨fun hmem => ?_, ih _ hlen⟩
      have := List.mem_filter.mp ((mem_dedupFirst_aux n _ hlen v).mp hmem)
      simp [bne_iff_ne] at this

theorem nodup_dedupFirst (l : List (List Char)) : (dedupFirst l).Nodup :=
  nodup_dedupFirst_aux l.length l (le_refl _)

theorem foldl_objInsert (vs : List (List Char)) :
    ∀ acc : List (List Char), acc.Nodup →
      vs.foldl objInsert acc
        = acc ++ dedupFirst (vs.filter (fun v => decide (v ∉ acc))) := by
  induction vs with
  | nil =>
    intro acc _
    simp [dedupFirst_nil]
  | cons v vs ih =>
    intro acc hacc
    by_cases hv : v ∈ acc
    · have hins : objInsert acc v = acc := by simp [objInsert, hv]
      rw [List.foldl_cons, hins, ih acc hacc, List.filter_cons]
      simp [hv]
    · have hins : objInsert acc v = acc ++ [v] := by simp [objInsert, hv]
      have hnodup : (acc ++ [v]).Nodup := by
        rw [List.nodup_append]
        refine ⟨hacc, List.nodup_singleton v, fun x hx hx1 => ?_⟩
        rw [List.mem_singleton] at hx1
        subst hx1
        exact hv hx
      rw [List.foldl_cons, hins, ih _ hnodup, List.filter_cons,
        if_pos (by simp [hv]), dedupFirst_cons, List.filter_filter]
      have hpt : ∀ x : List Char,
          ((x != v) && decide (x ∉ acc)) = decide (x ∉ acc ++ [v]) := by
        intro x
        by_cases h1 : x = v
        · subst h1
          simp [List.mem_append]
        · by_cases h2 : x ∈ acc
          · simp [h1, h2, List.mem_append, bne_iff_ne]
          · simp [h1, h2, List.mem_append, bne_iff_ne]
      rw [List.filter_congr (fun x _ => hpt x)]
      simp [List.append_assoc]

theorem insertByVal_perm (x : List Char) (l : List (List Char)) :
    (insertByVal x l).Perm (x :: l) := by
  induction l with
  | nil => exact List.Perm.refl _
  | cons y ys ih =>
    simp only [insertByVal]
    by_cases h : toNatValue x ≤ toNatValue y
    · rw [if_pos h]
    · rw [if_neg h]
      exact (ih.cons y).trans (List.Perm.swap x y ys)

theorem sortByVal_perm (l : List (List Char)) : (sortByVal l).Perm l := by
  induction l with
  | nil => exact List.Perm.refl _
  | cons x xs ih =>
    have : sortByVal (x :: xs) = insertByVal x (sortByVal xs) := rfl
    rw [this]
    exact (insertByVal_perm x (sortByVal xs)).trans (ih.cons x)

/-- The content of `findAllUniq` for one key family: the ordered output
described by `specOrder`, with no duplicates and exactly the matched values
as members. -/
theorem findAllUniq_spec (pre data : List Char) :
    findAllUniq pre data = specOrder (lineValues pre data) ∧
    (findAllUniq pre data).Nodup ∧
    ∀ x, x ∈ findAllUniq pre data ↔ x ∈ lineValues pre data := by
  have hfold : (lineValues pre data).foldl objInsert []
      = dedupFirst (lineValues pre data) := by
    rw [foldl_objInsert _ [] List.nodup_nil]
    simp
  have hmain : findAllUniq pre data = specOrder (lineValues pre data) := by
    unfold findAllUniq jsObjectKeys specOrder
    rw [hfold]
  refine ⟨hmain, ?_, ?_⟩
  · rw [hmain]
    unfold specOrder
    rw [List.nodup_append]
    refine ⟨(sortByVal_perm _).symm.nodup
        ((nodup_dedupFirst _).filter _),
      (nodup_dedupFirst _).filter _, fun x hx1 hx2 => ?_⟩
    have h1 := (List.mem_filter.mp ((sortByVal_perm _).mem_iff.mp hx1)).2
    have h2 := (List.mem_filter.mp hx2).2
    rw [h1] at h2
    cases h2
  · intro x
    rw [hmain]
    unfold specOrder
    rw [List.mem_append, (sortByVal_perm _).mem_iff, List.mem_filter,
      List.mem_filter, mem_dedupFirst]
    by_cases h : isArrayIndex x = true <;> simp [h]

/-- Claim C6 (amended): each of the three parsed sequences contains each
distinct matched value exactly once and has exactly the matched values as
members; the order is the first-seen order of the values in the input text
*except* that values shaped like JavaScript array indices (canonical
integers below 2^32 - 1) are hoisted to the front in ascending numeric
order, as `Object.keys` enumerates integer-like keys first. -/
theorem c6_parse_dedup_order (data : List Char) :
    ((readProjectProperties data).libs
        = specOrder (lineValues libRefKey data) ∧
      (readProjectProperties data).gradleIncludes
        = specOrder (lineValues gradleIncludeKey data) ∧
      (readProjectProperties data).systemLibs
        = specOrder (lineValues sysLibKey data)) ∧
    ((readProjectProperties data).libs.Nodup ∧
      (readProjectProperties data).gradleIncludes.Nodup ∧
      (readProjectProperties data).systemLibs.Nodup) ∧
    ((∀ x, x ∈ (readProjectProperties data).libs
        ↔ x ∈ lineValues libRefKey data) ∧
      (∀ x, x ∈ (readProjectProperties data).gradleIncludes
        ↔ x ∈ lineValues gradleIncludeKey data) ∧
      (∀ x, x ∈ (readProjectProperties data).systemLibs
        ↔ x ∈ lineValues sysLibKey data)) :=
  ⟨⟨(findAllUniq_spec libRefKey data).1,
    (findAllUniq_spec gradleIncludeKey data).1,
    (findAllUniq_spec sysLibKey data).1⟩,
   ⟨(findAllUniq_spec libRefKey data).2.1,
    (findAllUniq_spec gradleIncludeKey data).2.1,
    (findAllUniq_spec sysLibKey data).2.1⟩,
   ⟨(findAllUniq_spec libRefKey data).2.2,
    (findAllUniq_spec gradleIncludeKey data).2.2,
    (findAllUniq_spec sysLibKey data).2.2⟩⟩

/-- Claim C6, counterexample: the matched values are "b" then "1" in text
order, yet the parsed sequence is ["1", "b"] -- not the first-seen order --
because the JavaScript object used for deduplication enumerates the
integer-like key "1" first. -/
theorem c6_counterexample :
    lineValues libRefKey
      "android.library.reference.1=b\nandroid.library.reference.2=1".data
      = ["b".data, "1".data] ∧
    (readProjectProperties
      "android.library.reference.1=b\nandroid.library.reference.2=1".data).libs
      = ["1".data, "b".data] ∧
    (readProjectProperties
      "android.library.reference.1=b\nandroid.library.reference.2=1".data).libs
      ≠ ["b".data, "1".data] :=
  ⟨by decide, by decide, by decide⟩

/-- Witness for claim C8: a file whose content has the marker only at a
positive offset is classified as auto-generated. -/
theorem c8_witness :
    isAutoGenerated
      (fun q => if q = "g".data then some ("x".data ++ MARKER) else none)
      "g".data = true :=
  (c8_isAutoGenerated_characterization _ _).mpr
    ⟨"x".data ++ MARKER, rfl, ⟨1, by decide⟩, by decide⟩
